import Mathlib

/-!
Shallow embedding of the Elyxyr lootbox server (TypeScript/Express + Shopify).
External effects (the Shopify attribute store and the order-creation API) are
made explicit: store reads are passed in as the metafield list the GET would
return, and fallible external calls are passed in as `Except` outcomes.
Numbers: JS integer values are modelled as `Int`, probability weights and the
random draw as `ℚ`.
-/

namespace Elyxyr

/-- One Shopify metafield record as seen by the credits helpers
(`id` and `value` are the only fields the code reads). -/
structure Metafield where
  id : Int
  value : String
deriving DecidableEq, Repr

/-- JS character test used by `parseInt` for leading whitespace. -/
def jsWhitespace (c : Char) : Bool :=
  c == ' ' || c == '\t' || c == '\n' || c == '\r'

/-- Numeric value of a decimal digit character. -/
def digitVal (c : Char) : Nat := c.toNat - 48

/-- Longest leading run of decimal digits, as a number; `none` when there is
no leading digit (JS `NaN`). -/
def parseDigits (cs : List Char) : Option Nat :=
  let ds := cs.takeWhile Char.isDigit
  if ds.isEmpty then none
  else some (ds.foldl (fun acc c => acc * 10 + digitVal c) 0)

/-- Model of JavaScript `parseInt(s, 10)`: skip leading whitespace, read an
optional sign, then the longest prefix of decimal digits; `none` models `NaN`. -/
def parseIntJS (s : String) : Option Int :=
  let cs := s.data.dropWhile jsWhitespace
  match cs with
  | '-' :: rest => (parseDigits rest).map fun n => -(n : Int)
  | '+' :: rest => (parseDigits rest).map fun n => (n : Int)
  | rest => (parseDigits rest).map fun n => (n : Int)

/-- The credits read `getCustomerCredits`: the store GET (already filtered by
`namespace=custom&key=credits_elyxyr`) returns `metafields`; an empty list
yields 0, otherwise the first record's value is parsed with `parseInt` and a
`NaN` result (`none`) defaults to 0.  The function is total: parse failures
never surface as errors. -/
def getCustomerCredits (metafields : List Metafield) : Int :=
  match metafields with
  | [] => 0
  | mf :: _ =>
    match parseIntJS mf.value with
    | none => 0
    | some v => v

/-- One write request `setCustomerCredits` can issue after its initial GET. -/
inductive StoreReq where
  | getMetafields (customerId ns key : String)
  | putMetafield (mfId : Int) (value ty : String)
  | postMetafield (ns key value ty ownerId ownerResource : String)
deriving DecidableEq, Repr

/-- The credits write `setCustomerCredits`: the sequence of Shopify requests issued, given the
metafield list its initial GET returns.  It first GETs the record for
`(customerId, custom, credits_elyxyr)`; if one exists it PUTs by that record's
id, otherwise it POSTs a new record for the customer.  The balance is
serialized with `toString` (a decimal-integer string).  The source coerces the
owner id with `Number(customerId)`; the customer id string is kept verbatim
here. -/
def setCustomerCreditsReqs (customerId : String) (newBalance : Int)
    (existing : List Metafield) : List StoreReq :=
  StoreReq.getMetafields customerId "custom" "credits_elyxyr" ::
    match existing with
    | mf :: _ => [StoreReq.putMetafield mf.id (toString newBalance) "number_integer"]
    | [] => [StoreReq.postMetafield "custom" "credits_elyxyr" (toString newBalance)
        "number_integer" customerId "customer"]

/-- A prize option in a lootbox (`variantId`, `title`, probability `weight`). -/
structure LootItem where
  variantId : Int
  title : String
  weight : ℚ
deriving DecidableEq, Repr

/-- A lootbox: id, display name, price in credits, ordered prize list. -/
structure LootBox where
  id : String
  name : String
  priceCredits : Int
  items : List LootItem
deriving DecidableEq, Repr

/-- The static lootbox configuration table of the source. -/
def LOOTBOXES : List LootBox :=
  [⟨"elyxyr_basic", "Lootbox Elyxyr Basic", 10,
    [⟨56903978746240, "Produit Test Unique", 100⟩]⟩]

/-- Lookup `getLootbox`: linear lookup by box id (the source closes over the static
`LOOTBOXES`; the table is a parameter here). -/
def getLootbox (boxes : List LootBox) (boxId : String) : Option LootBox :=
  boxes.find? fun b => b.id == boxId

/-- Total weight of an item list (`items.reduce((s, i) => s + i.weight, 0)`). -/
def totalWeight (items : List LootItem) : ℚ :=
  (items.map LootItem.weight).sum

/-- The selection loop of `weightedRandom`: walk the items accumulating `cum`
and return the first item with `rnd ≤ cum`; `none` when the loop falls
through. -/
def cumSelect : List LootItem → ℚ → ℚ → Option LootItem
  | [], _, _ => none
  | item :: rest, rnd, cum =>
    let cum2 := cum + item.weight
    if rnd ≤ cum2 then some item else cumSelect rest rnd cum2

/-- The sampler `weightedRandom`: scale the uniform draw `random` by the total weight,
run the accumulation loop, and fall back to `items[items.length - 1]` when the
loop falls through (`none` models the `undefined` this indexing yields on an
empty array). -/
def weightedRandom (items : List LootItem) (random : ℚ) : Option LootItem :=
  let rnd := random * totalWeight items
  match cumSelect items rnd 0 with
  | some item => some item
  | none => items.getLast?

/-- Sum of the first `n` weights of an item list. -/
def sumTake (items : List LootItem) (n : Nat) : ℚ :=
  ((items.map LootItem.weight).take n).sum

/-- The JSON responses the `/apps/elyxyr/spin` handler can produce. -/
structure SpinOk where
  success : Bool
  customerId : String
  boxId : String
  boxName : String
  credits_before : Int
  credits_after : Int
  price_credits : Int
  prizeVariantId : Int
  prizeTitle : String
  orderId : Option Int
  orderError : Option String
deriving DecidableEq, Repr

/-- HTTP-level outcome of one spin call: 400 with an error message, 400 with
balance context, 500 (an uncaught throw reaching the outer catch), or the
success JSON. -/
inductive SpinResponse where
  | badRequest (error : String)
  | insufficient (required current : Int)
  | internalError
  | ok (body : SpinOk)
deriving DecidableEq, Repr

/-- Externally visible side effects of one spin call: the balance values
passed to `setCustomerCredits`, and whether `createLootboxOrder` was
invoked. -/
structure SpinTrace where
  setCalls : List Int
  orderAttempted : Bool
deriving DecidableEq, Repr

/-- The `/apps/elyxyr/spin` handler.  External interactions are explicit
parameters: `storeRead` is the outcome of the balance GET (throw, or the
metafield list), `storeWrite` the outcome of `setCustomerCredits` (throw or
success), `orderCall` the outcome of `createLootboxOrder` (the thrown error's
message, or `data?.order?.id ?? null`), and `random` the `Math.random()`
draw.  A thrown store error reaches the outer catch and renders as the 500
response.  A `none` prize (empty item list) makes the response build throw on
the `undefined` property access, after the debit and the order attempt. -/
def spin (boxes : List LootBox) (customerId boxId : Option String)
    (storeRead : Except Unit (List Metafield)) (storeWrite : Except Unit Unit)
    (orderCall : Except String (Option Int)) (random : ℚ) :
    SpinResponse × SpinTrace :=
  if customerId.getD "" = "" ∨ boxId.getD "" = "" then
    (SpinResponse.badRequest "Missing customerId or boxId", ⟨[], false⟩)
  else
    match getLootbox boxes (boxId.getD "") with
    | none => (SpinResponse.badRequest "Unknown lootbox", ⟨[], false⟩)
    | some box =>
      match storeRead with
      | Except.error _ => (SpinResponse.internalError, ⟨[], false⟩)
      | Except.ok mfs =>
        let beforeCredits := getCustomerCredits mfs
        if beforeCredits < box.priceCredits then
          (SpinResponse.insufficient box.priceCredits beforeCredits, ⟨[], false⟩)
        else
          let afterCredits := beforeCredits - box.priceCredits
          match storeWrite with
          | Except.error _ => (SpinResponse.internalError, ⟨[afterCredits], false⟩)
          | Except.ok _ =>
            match weightedRandom box.items random with
            | none => (SpinResponse.internalError, ⟨[afterCredits], true⟩)
            | some prize =>
              match orderCall with
              | Except.ok v =>
                (SpinResponse.ok ⟨true, customerId.getD "", boxId.getD "", box.name,
                  beforeCredits, afterCredits, box.priceCredits,
                  prize.variantId, prize.title, v, none⟩, ⟨[afterCredits], true⟩)
              | Except.error msg =>
                (SpinResponse.ok ⟨true, customerId.getD "", boxId.getD "", box.name,
                  beforeCredits, afterCredits, box.priceCredits,
                  prize.variantId, prize.title, none, some msg⟩, ⟨[afterCredits], true⟩)

/-- Any item the selection loop returns comes from the input list. -/
lemma cumSelect_mem :
    ∀ (items : List LootItem) (rnd cum : ℚ) (x : LootItem),
      cumSelect items rnd cum = some x → x ∈ items := by
  intro items
  induction items with
  | nil => intro rnd cum x h; simp [cumSelect] at h
  | cons item rest ih =>
    intro rnd cum x h
    simp only [cumSelect] at h
    by_cases hsel : rnd ≤ cum + item.weight
    · rw [if_pos hsel] at h
      cases h
      exact List.mem_cons_self _ _
    · rw [if_neg hsel] at h
      exact List.mem_cons_of_mem _ (ih _ _ _ h)

/-- A non-empty list has a last element, and it is a member. -/
lemma exists_getLast?_mem {α : Type} :
    ∀ (l : List α), l ≠ [] → ∃ x, l.getLast? = some x ∧ x ∈ l := by
  intro l
  induction l with
  | nil => intro h; exact absurd rfl h
  | cons a t ih =>
    intro _
    cases t with
    | nil => exact ⟨a, rfl, List.mem_cons_self _ _⟩
    | cons b t' =>
      obtain ⟨x, hx, hmem⟩ := ih (by simp)
      exact ⟨x, by simpa [List.getLast?_cons_cons] using hx,
        List.mem_cons_of_mem _ hmem⟩

/-- On a non-empty item list `weightedRandom` always yields some member of
the list (through the loop or through the last-element fallback). -/
lemma weightedRandom_total (items : List LootItem) (random : ℚ)
    (hne : items ≠ []) :
    ∃ x, weightedRandom items random = some x ∧ x ∈ items := by
  cases hc : cumSelect items (random * totalWeight items) 0 with
  | some i =>
    exact ⟨i, by simp [weightedRandom, hc], cumSelect_mem _ _ _ _ hc⟩
  | none =>
    obtain ⟨x, hx, hmem⟩ := exists_getLast?_mem items hne
    exact ⟨x, by simp [weightedRandom, hc, hx], hmem⟩

/-- The selection loop, started at offset `cum`, picks the first index `k`
whose running cumulative sum passes `rnd`, provided `rnd` lies below the
final cumulative sum. -/
lemma cumSelect_first (rnd : ℚ) :
    ∀ (items : List LootItem) (cum : ℚ),
      items ≠ [] →
      rnd < cum + totalWeight items →
      ∃ k, ∃ hk : k < items.length,
        cumSelect items rnd cum = some (items.get ⟨k, hk⟩) ∧
        rnd ≤ cum + sumTake items (k + 1) ∧
        ∀ j < k, cum + sumTake items (j + 1) < rnd := by
  intro items
  induction items with
  | nil => intro cum hne _; exact absurd rfl hne
  | cons item rest ih =>
    intro cum _ hlt
    have htw : totalWeight (item :: rest) = item.weight + totalWeight rest := by
      simp [totalWeight]
    by_cases hsel : rnd ≤ cum + item.weight
    · refine ⟨0, by simp, ?_, ?_, ?_⟩
      · simp [cumSelect, hsel]
      · simpa [sumTake] using hsel
      · intro j hj; omega
    · push_neg at hsel
      have hrest : rest ≠ [] := by
        intro he
        subst he
        simp [totalWeight] at hlt
        linarith
      have hlt' : rnd < (cum + item.weight) + totalWeight rest := by
        rw [htw] at hlt; linarith
      obtain ⟨k, hk, hloop, hle, hfirst⟩ := ih (cum + item.weight) hrest hlt'
      refine ⟨k + 1, by simpa using Nat.succ_lt_succ hk, ?_, ?_, ?_⟩
      · simpa [cumSelect, not_le.mpr hsel, if_neg (not_le.mpr hsel)] using hloop
      · have : sumTake (item :: rest) (k + 2) = item.weight + sumTake rest (k + 1) := by
          simp [sumTake]
        rw [this]; linarith
      · intro j hj
        cases j with
        | zero =>
          have : sumTake (item :: rest) 1 = item.weight := by simp [sumTake]
          rw [this]; linarith
        | succ j' =>
          have hj' : j' < k := by omega
          have : sumTake (item :: rest) (j' + 2) = item.weight + sumTake rest (j' + 1) := by
            simp [sumTake]
          rw [this]
          have := hfirst j' hj'
          linarith

example : parseIntJS "-5" = some (-5) := by decide
example : parseIntJS "abc" = none := by decide
example : parseIntJS "" = none := by decide
example : parseIntJS " 25" = some 25 := by decide
example : getCustomerCredits [⟨1, "-5"⟩] = -5 := by decide
example : getCustomerCredits [] = 0 := by decide
example : weightedRandom [⟨1, "A", 0⟩] (1/2) = some ⟨1, "A", 0⟩ := by
  norm_num [weightedRandom, cumSelect, totalWeight]
example : weightedRandom [] (1/2) = none := by
  norm_num [weightedRandom, cumSelect, totalWeight]
example :
    weightedRandom [⟨1, "a", 60⟩, ⟨2, "b", 30⟩, ⟨3, "c", 10⟩] (11/20) =
      some ⟨1, "a", 60⟩ := by
  norm_num [weightedRandom, cumSelect, totalWeight]
example :
    weightedRandom [⟨1, "a", 60⟩, ⟨2, "b", 30⟩, ⟨3, "c", 10⟩] (3/5) =
      some ⟨1, "a", 60⟩ := by
  norm_num [weightedRandom, cumSelect, totalWeight]

/-- C3: for a non-empty item list with all-positive weights and a scaled draw
`r = random * totalWeight` in `[0, totalWeight)`, `weightedRandom` returns the
first item (in list order) whose running cumulative weight sum `cum` satisfies
`r ≤ cum`; in particular the boundary `r = cum` selects the item ending at
that boundary, not the next one. -/
theorem weightedRandom_selects_first (items : List LootItem) (random : ℚ)
    (hne : items ≠ []) (_hpos : ∀ i ∈ items, 0 < i.weight)
    (_hr0 : 0 ≤ random * totalWeight items)
    (hr1 : random * totalWeight items < totalWeight items) :
    ∃ k, ∃ hk : k < items.length,
      weightedRandom items random = some (items.get ⟨k, hk⟩) ∧
      random * totalWeight items ≤ sumTake items (k + 1) ∧
      ∀ j < k, sumTake items (j + 1) < random * totalWeight items := by
  obtain ⟨k, hk, hloop, hle, hfirst⟩ :=
    cumSelect_first (random * totalWeight items) items 0 hne (by simpa using hr1)
  refine ⟨k, hk, ?_, by simpa using hle, fun j hj => by simpa using hfirst j hj⟩
  simp [weightedRandom, hloop]

/-- Witness for C3 at the boundary: weights `[60, 30, 10]` and scaled draw
`r = (3/5) * 100 = 60 = cum` after the first item select the first item. -/
theorem weightedRandom_selects_first_witness :
    ∃ k, ∃ hk : k <
        ([⟨1, "a", 60⟩, ⟨2, "b", 30⟩, ⟨3, "c", 10⟩] : List LootItem).length,
      weightedRandom [⟨1, "a", 60⟩, ⟨2, "b", 30⟩, ⟨3, "c", 10⟩] (3/5) =
        some (([⟨1, "a", 60⟩, ⟨2, "b", 30⟩, ⟨3, "c", 10⟩] : List LootItem).get ⟨k, hk⟩) ∧
      (3/5 : ℚ) * totalWeight [⟨1, "a", 60⟩, ⟨2, "b", 30⟩, ⟨3, "c", 10⟩] ≤
        sumTake [⟨1, "a", 60⟩, ⟨2, "b", 30⟩, ⟨3, "c", 10⟩] (k + 1) ∧
      ∀ j < k, sumTake [⟨1, "a", 60⟩, ⟨2, "b", 30⟩, ⟨3, "c", 10⟩] (j + 1) <
        (3/5 : ℚ) * totalWeight [⟨1, "a", 60⟩, ⟨2, "b", 30⟩, ⟨3, "c", 10⟩] :=
  weightedRandom_selects_first [⟨1, "a", 60⟩, ⟨2, "b", 30⟩, ⟨3, "c", 10⟩] (3/5)
    (by simp)
    (by
      intro i hi
      simp only [List.mem_cons, List.not_mem_nil, or_false] at hi
      rcases hi with rfl | rfl | rfl <;> norm_num)
    (by norm_num [totalWeight])
    (by norm_num [totalWeight])

/-- C4: on any non-empty item list with all-positive weights and any rng
draw, `weightedRandom` is total: it returns (`some` of) an element of the
input list, with the last item as fallback when the loop falls through. -/
theorem weightedRandom_total_member (items : List LootItem) (random : ℚ)
    (hne : items ≠ []) (_hpos : ∀ i ∈ items, 0 < i.weight) :
    ∃ x, weightedRandom items random = some x ∧ x ∈ items :=
  weightedRandom_total items random hne

/-- Witness for C4 at a concrete input. -/
theorem weightedRandom_total_member_witness :
    ∃ x, weightedRandom [⟨1, "a", 60⟩, ⟨2, "b", 30⟩] (9/10) = some x ∧
      x ∈ ([⟨1, "a", 60⟩, ⟨2, "b", 30⟩] : List LootItem) :=
  weightedRandom_total_member [⟨1, "a", 60⟩, ⟨2, "b", 30⟩] (9/10)
    (by simp)
    (by
      intro i hi
      simp only [List.mem_cons, List.not_mem_nil, or_false] at hi
      rcases hi with rfl | rfl <;> norm_num)

/-- C5 is violated by the source: an all-zero-weight list is sampled silently
(total weight 0 makes the scaled draw 0, so the first item wins the `r ≤ cum`
test), and an empty list yields `none` (the `undefined` of
`items[items.length - 1]`), not an `InvalidConfiguration` error. -/
theorem weightedRandom_invalid_config_silent :
    weightedRandom [⟨1, "A", 0⟩] (1/2) = some ⟨1, "A", 0⟩ ∧
    weightedRandom [] (1/2) = none := by
  constructor
  · norm_num [weightedRandom, cumSelect, totalWeight]
  · norm_num [weightedRandom, cumSelect, totalWeight]

/-- C7: `getCustomerCredits` returns 0 when no metafield record exists and
when the stored value string fails to parse (`parseInt` yields `NaN`); being
a total function into `Int`, it never propagates a parse failure as an
error. -/
theorem getBalance_defaults_to_zero (mfs : List Metafield) :
    (mfs = [] → getCustomerCredits mfs = 0) ∧
    (∀ mf rest, mfs = mf :: rest → parseIntJS mf.value = none →
      getCustomerCredits mfs = 0) := by
  constructor
  · rintro rfl; rfl
  · rintro mf rest rfl hparse
    simp [getCustomerCredits, hparse]

/-- Witness for C7: absent record, and a non-numeric stored value. -/
theorem getBalance_defaults_to_zero_witness :
    getCustomerCredits [] = 0 ∧ getCustomerCredits [⟨7, "abc"⟩] = 0 :=
  ⟨(getBalance_defaults_to_zero []).1 rfl,
   (getBalance_defaults_to_zero [⟨7, "abc"⟩]).2 ⟨7, "abc"⟩ [] rfl (by decide)⟩

/-- C8 as stated is false: a stored value string that parses to a negative
integer makes `getCustomerCredits` return a negative balance. -/
theorem getBalance_negative_counterexample :
    getCustomerCredits [⟨1, "-5"⟩] = -5 ∧
    ¬ (0 ≤ getCustomerCredits [⟨1, "-5"⟩]) := by decide

/-- C9: `setCustomerCredits` first issues the metafield GET for
`(customerId, custom, credits_elyxyr)`; when a record exists it PUTs by that
record's id, otherwise it POSTs a new record for the customer with that
namespace and key; in both cases the balance is serialized with `toString`
(a decimal-integer string). -/
theorem setBalance_read_then_upsert (customerId : String) (newBalance : Int)
    (existing : List Metafield) :
    (setCustomerCreditsReqs customerId newBalance existing).head? =
      some (StoreReq.getMetafields customerId "custom" "credits_elyxyr") ∧
    (existing = [] →
      setCustomerCreditsReqs customerId newBalance existing =
        [StoreReq.getMetafields customerId "custom" "credits_elyxyr",
         StoreReq.postMetafield "custom" "credits_elyxyr" (toString newBalance)
           "number_integer" customerId "customer"]) ∧
    (∀ mf rest, existing = mf :: rest →
      setCustomerCreditsReqs customerId newBalance existing =
        [StoreReq.getMetafields customerId "custom" "credits_elyxyr",
         StoreReq.putMetafield mf.id (toString newBalance) "number_integer"]) := by
  refine ⟨?_, ?_, ?_⟩
  · cases existing <;> rfl
  · rintro rfl; rfl
  · rintro mf rest rfl; rfl

/-- Witness for C9: create on absence, update-in-place by id on presence,
with the decimal serialization `"15"`. -/
theorem setBalance_read_then_upsert_witness :
    setCustomerCreditsReqs "9" 15 [] =
      [StoreReq.getMetafields "9" "custom" "credits_elyxyr",
       StoreReq.postMetafield "custom" "credits_elyxyr" "15" "number_integer"
         "9" "customer"] ∧
    setCustomerCreditsReqs "9" 15 [⟨42, "25"⟩] =
      [StoreReq.getMetafields "9" "custom" "credits_elyxyr",
       StoreReq.putMetafield 42 "15" "number_integer"] :=
  ⟨(setBalance_read_then_upsert "9" 15 []).2.1 rfl,
   (setBalance_read_then_upsert "9" 15 [⟨42, "25"⟩]).2.2 ⟨42, "25"⟩ [] rfl⟩

/-- Every spin execution performs either no balance write at all, or exactly
the single debit write `before - priceCredits`, and only after the
insufficiency check passed. -/
lemma spin_setCalls_spec (boxes : List LootBox) (customerId boxId : Option String)
    (storeRead : Except Unit (List Metafield)) (storeWrite : Except Unit Unit)
    (orderCall : Except String (Option Int)) (random : ℚ) :
    (spin boxes customerId boxId storeRead storeWrite orderCall random).2.setCalls = [] ∨
    ∃ box mfs, getLootbox boxes (boxId.getD "") = some box ∧
      storeRead = Except.ok mfs ∧
      box.priceCredits ≤ getCustomerCredits mfs ∧
      (spin boxes customerId boxId storeRead storeWrite orderCall random).2.setCalls =
        [getCustomerCredits mfs - box.priceCredits] := by
  by_cases h1 : customerId.getD "" = "" ∨ boxId.getD "" = ""
  · left; simp [spin, h1]
  · cases hbox : getLootbox boxes (boxId.getD "") with
    | none => left; simp [spin, h1, hbox]
    | some box =>
      cases storeRead with
      | error e => left; simp [spin, h1, hbox]
      | ok mfs =>
        by_cases h2 : getCustomerCredits mfs < box.priceCredits
        · left; simp [spin, h1, hbox, h2]
        · right
          refine ⟨box, mfs, rfl, rfl, le_of_not_lt h2, ?_⟩
          cases storeWrite with
          | error e => simp [spin, h1, hbox, h2]
          | ok u =>
            cases hw : weightedRandom box.items random with
            | none => simp [spin, h1, hbox, h2, hw]
            | some prize =>
              cases orderCall with
              | ok v => simp [spin, h1, hbox, h2, hw]
              | error msg => simp [spin, h1, hbox, h2, hw]

/-- C1: when the pre-read balance covers the box price, the balance write
succeeds and the order-creation call fails, spin still renders the success
JSON (`success = true`, `credits_after = before - priceCredits`) with the
failure message in `orderError`, and the only write it ever issued is the
debit — nothing rolls it back. -/
theorem spin_fulfillment_failure_still_succeeds
    (boxes : List LootBox) (cid bid : String) (box : LootBox)
    (mfs : List Metafield) (msg : String) (random : ℚ)
    (hcid : cid ≠ "") (hbid : bid ≠ "")
    (hbox : getLootbox boxes bid = some box)
    (hitems : box.items ≠ [])
    (hsuff : box.priceCredits ≤ getCustomerCredits mfs) :
    ∃ body : SpinOk,
      spin boxes (some cid) (some bid) (Except.ok mfs) (Except.ok ())
          (Except.error msg) random =
        (SpinResponse.ok body,
         ⟨[getCustomerCredits mfs - box.priceCredits], true⟩) ∧
      body.success = true ∧
      body.credits_before = getCustomerCredits mfs ∧
      body.credits_after = getCustomerCredits mfs - box.priceCredits ∧
      body.orderError = some msg := by
  obtain ⟨prize, hw, _⟩ := weightedRandom_total box.items random hitems
  refine ⟨⟨true, cid, bid, box.name, getCustomerCredits mfs,
    getCustomerCredits mfs - box.priceCredits, box.priceCredits,
    prize.variantId, prize.title, none, some msg⟩, ?_, rfl, rfl, rfl, rfl⟩
  simp [spin, hcid, hbid, hbox, not_lt.mpr hsuff, hw]

/-- C2: when the pre-read balance is below the box price, spin fails with the
insufficient-credits response carrying `required = priceCredits` and
`current = before`, and neither the balance write nor the order creation is
invoked (the trace is empty), for every possible outcome of those calls. -/
theorem spin_insufficient_no_mutation
    (boxes : List LootBox) (cid bid : String) (box : LootBox)
    (mfs : List Metafield) (storeWrite : Except Unit Unit)
    (orderCall : Except String (Option Int)) (random : ℚ)
    (hcid : cid ≠ "") (hbid : bid ≠ "")
    (hbox : getLootbox boxes bid = some box)
    (hlt : getCustomerCredits mfs < box.priceCredits) :
    spin boxes (some cid) (some bid) (Except.ok mfs) storeWrite orderCall random =
      (SpinResponse.insufficient box.priceCredits (getCustomerCredits mfs),
       ⟨[], false⟩) := by
  simp [spin, hcid, hbid, hbox, hlt]

/-- C6: when the balance write throws, the whole spin fails with the 500
response and nothing further happens: the order call is never attempted
(`orderAttempted = false`, for every possible order-call outcome) and no
success body is produced. -/
theorem spin_store_write_failure_aborts
    (boxes : List LootBox) (cid bid : String) (box : LootBox)
    (mfs : List Metafield) (orderCall : Except String (Option Int)) (random : ℚ)
    (hcid : cid ≠ "") (hbid : bid ≠ "")
    (hbox : getLootbox boxes bid = some box)
    (hsuff : box.priceCredits ≤ getCustomerCredits mfs) :
    spin boxes (some cid) (some bid) (Except.ok mfs) (Except.error ())
        orderCall random =
      (SpinResponse.internalError,
       ⟨[getCustomerCredits mfs - box.priceCredits], false⟩) := by
  simp [spin, hcid, hbid, hbox, not_lt.mpr hsuff]

/-- C10: every spin invocation issues at most one balance write, and any
written value is exactly `before - priceCredits` for the resolved box with
the guard `priceCredits ≤ before` established, hence non-negative (in
particular whenever `priceCredits` is non-negative). -/
theorem spin_single_nonneg_write (boxes : List LootBox)
    (customerId boxId : Option String)
    (storeRead : Except Unit (List Metafield)) (storeWrite : Except Unit Unit)
    (orderCall : Except String (Option Int)) (random : ℚ) :
    (spin boxes customerId boxId storeRead storeWrite orderCall random).2.setCalls.length ≤ 1 ∧
    ∀ v ∈ (spin boxes customerId boxId storeRead storeWrite orderCall random).2.setCalls,
      ∃ box mfs, getLootbox boxes (boxId.getD "") = some box ∧
        storeRead = Except.ok mfs ∧
        v = getCustomerCredits mfs - box.priceCredits ∧
        box.priceCredits ≤ getCustomerCredits mfs ∧
        0 ≤ v := by
  rcases spin_setCalls_spec boxes customerId boxId storeRead storeWrite orderCall random with
    h | ⟨box, mfs, hbox, hread, hle, h⟩
  · rw [h]
    exact ⟨by simp, by simp⟩
  · rw [h]
    refine ⟨by simp, ?_⟩
    intro v hv
    simp only [List.mem_singleton] at hv
    subst hv
    exact ⟨box, mfs, hbox, hread, rfl, hle, sub_nonneg.mpr hle⟩

/-- Witness for C1: balance 25, price 10, failing order call — success JSON
with `credits_after = 15`, the error message captured, and only the debit
write issued. -/
theorem spin_fulfillment_failure_still_succeeds_witness :
    ∃ body : SpinOk,
      spin LOOTBOXES (some "24070351749504") (some "elyxyr_basic")
          (Except.ok [⟨1, "25"⟩]) (Except.ok ())
          (Except.error "Shopify API error: 404") (1/2) =
        (SpinResponse.ok body, ⟨[15], true⟩) ∧
      body.success = true ∧
      body.credits_before = 25 ∧
      body.credits_after = 15 ∧
      body.orderError = some "Shopify API error: 404" :=
  spin_fulfillment_failure_still_succeeds LOOTBOXES "24070351749504" "elyxyr_basic"
    ⟨"elyxyr_basic", "Lootbox Elyxyr Basic", 10,
      [⟨56903978746240, "Produit Test Unique", 100⟩]⟩
    [⟨1, "25"⟩] "Shopify API error: 404" (1/2)
    (by decide) (by decide) rfl (by simp) (by decide)

/-- Witness for C2: balance 5, price 10 — insufficient-credits response and
an empty effect trace. -/
theorem spin_insufficient_no_mutation_witness :
    spin LOOTBOXES (some "24070351749504") (some "elyxyr_basic")
        (Except.ok [⟨1, "5"⟩]) (Except.ok ()) (Except.ok none) 0 =
      (SpinResponse.insufficient 10 5, ⟨[], false⟩) :=
  spin_insufficient_no_mutation LOOTBOXES "24070351749504" "elyxyr_basic"
    ⟨"elyxyr_basic", "Lootbox Elyxyr Basic", 10,
      [⟨56903978746240, "Produit Test Unique", 100⟩]⟩
    [⟨1, "5"⟩] (Except.ok ()) (Except.ok none) 0
    (by decide) (by decide) rfl (by decide)

/-- Witness for C6: balance 25, price 10, failing balance write — 500
response, the attempted debit value recorded, order creation never
attempted. -/
theorem spin_store_write_failure_aborts_witness :
    spin LOOTBOXES (some "24070351749504") (some "elyxyr_basic")
        (Except.ok [⟨1, "25"⟩]) (Except.error ()) (Except.ok none) 0 =
      (SpinResponse.internalError, ⟨[15], false⟩) :=
  spin_store_write_failure_aborts LOOTBOXES "24070351749504" "elyxyr_basic"
    ⟨"elyxyr_basic", "Lootbox Elyxyr Basic", 10,
      [⟨56903978746240, "Produit Test Unique", 100⟩]⟩
    [⟨1, "25"⟩] (Except.ok none) 0
    (by decide) (by decide) rfl (by decide)

/-- Witness for C10: a run whose single recorded write is `25 - 10 = 15`. -/
theorem spin_single_nonneg_write_witness :
    ∃ box mfs, getLootbox LOOTBOXES "elyxyr_basic" = some box ∧
      (Except.ok [⟨1, "25"⟩] : Except Unit (List Metafield)) = Except.ok mfs ∧
      (15 : Int) = getCustomerCredits mfs - box.priceCredits ∧
      box.priceCredits ≤ getCustomerCredits mfs ∧
      (0 : Int) ≤ 15 :=
  (spin_single_nonneg_write LOOTBOXES (some "24070351749504")
      (some "elyxyr_basic") (Except.ok [⟨1, "25"⟩]) (Except.error ())
      (Except.ok none) 0).2 15 (by decide)

/-- C8 amended: `getCustomerCredits` returns a non-negative integer provided
the stored value string does not parse to a negative integer (absence and
unparseable values default to 0); and every balance value the spin path
passes to the store write is non-negative. -/
theorem balance_nonneg_amended :
    (∀ mfs : List Metafield,
      (∀ mf rest v, mfs = mf :: rest → parseIntJS mf.value = some v → 0 ≤ v) →
      0 ≤ getCustomerCredits mfs) ∧
    (∀ (boxes : List LootBox) (customerId boxId : Option String)
      (storeRead : Except Unit (List Metafield)) (storeWrite : Except Unit Unit)
      (orderCall : Except String (Option Int)) (random : ℚ),
      ∀ v ∈ (spin boxes customerId boxId storeRead storeWrite orderCall random).2.setCalls,
      0 ≤ v) := by
  constructor
  · intro mfs h
    cases mfs with
    | nil => simp [getCustomerCredits]
    | cons mf rest =>
      cases hp : parseIntJS mf.value with
      | none => simp [getCustomerCredits, hp]
      | some v =>
        have hv := h mf rest v rfl hp
        simpa [getCustomerCredits, hp] using hv
  · intro boxes customerId boxId storeRead storeWrite orderCall random v hv
    rcases spin_setCalls_spec boxes customerId boxId storeRead storeWrite
        orderCall random with h | ⟨box, mfs, _, _, hle, h⟩
    · rw [h] at hv
      simp at hv
    · rw [h] at hv
      simp only [List.mem_singleton] at hv
      subst hv
      exact sub_nonneg.mpr hle

/-- Witness for C8 amended: the stored value `"25"` yields a non-negative
balance, and a concrete spin run only writes the non-negative value 15. -/
theorem balance_nonneg_amended_witness :
    0 ≤ getCustomerCredits [⟨1, "25"⟩] ∧ (0 : Int) ≤ 15 := by
  constructor
  · refine balance_nonneg_amended.1 [⟨1, "25"⟩] ?_
    intro mf rest v h hp
    injection h with h1 h2
    subst h1
    have hp' : parseIntJS "25" = some v := hp
    have h25 : parseIntJS "25" = some 25 := by decide
    rw [h25] at hp'
    injection hp' with h3
    omega
  · exact balance_nonneg_amended.2 LOOTBOXES (some "24070351749504")
      (some "elyxyr_basic") (Except.ok [⟨1, "25"⟩]) (Except.error ())
      (Except.ok none) 0 15 (by decide)

end Elyxyr
